import Mathlib

/-!
Verification development for the NetVendor repository's vendor-resolution
engine (`src/NetVendor.py`, class `OUIManager`, and the packaged variant
`src/netvendor/core/oui_manager.py`).

The Python code is shallowly embedded: dictionaries become association
lists (Python dicts preserve insertion order, which matters for the
vendor-deduplication pass in `save_cache`), sets become duplicate-free
lists, wall-clock time and float intervals become rationals (a float
multiplied by 1.5 is modelled exactly), and the network becomes an
oracle `Nat → ApiResponse` giving the outcome of each successive HTTP
attempt.  `time.sleep` advances the modelled clock by exactly the
requested amount.
-/

/-- `OUIManager._normalize_mac`: `re.sub(r'[.:-]', '', mac.upper())[:6]` —
uppercase, strip `.`/`:`/`-` separators, keep the first six characters. -/
def normalizeMac (mac : String) : String :=
  String.mk (((mac.data.map Char.toUpper).filter
    (fun c => !(c == '.' || c == ':' || c == '-'))).take 6)

/-- Uppercase hexadecimal digit, as matched by the character class
`[0-9A-F]` in `OUIManager._validate_mac`. -/
def isHexUpper (c : Char) : Bool :=
  (('0' ≤ c) && (c ≤ '9')) || (('A' ≤ c) && (c ≤ 'F'))

/-- `OUIManager._validate_mac`: `re.match(r'^[0-9A-F]{6}', normalized)` —
the normalized string must start with six uppercase hex characters.
(The normalized string has length at most 6, so this means exactly six.) -/
def validateMac (mac : String) : Bool :=
  decide (6 ≤ (normalizeMac mac).data.length) &&
    ((normalizeMac mac).data.take 6).all isHexUpper

/-- The in-memory cache: a Python dict `oui -> vendor` as an
insertion-ordered association list. -/
abbrev Cache := List (String × String)

/-- Python dict lookup `d.get(k)` (keys are unique in a dict, so the
first match is the match). -/
def cacheGet : Cache → String → Option String
  | [], _ => none
  | p :: rest, k => if p.1 == k then some p.2 else cacheGet rest k

/-- Python dict assignment `d[k] = v`: overwrite in place if the key is
present (keeping its position), append otherwise. -/
def cachePut : Cache → String → String → Cache
  | [], k, v => [(k, v)]
  | p :: rest, k, v =>
    if p.1 == k then (k, v) :: rest else p :: cachePut rest k v

/-- Python `set.add`. -/
def addFailed (failed : List String) (k : String) : List String :=
  if failed.contains k then failed else failed ++ [k]

/-- The vendor-value deduplication pass in `OUIManager.save_cache`:
`if vendor not in unique_cache.values(): unique_cache[mac] = vendor`,
iterating over the cache in insertion order. -/
def dedupCache (c : Cache) : Cache :=
  c.foldl (fun acc p => if (acc.map (fun q => q.2)).contains p.2 then acc
                        else acc ++ [p]) []

/-- Insertion into a key-sorted association list (for
`json.dump(..., sort_keys=True)`). -/
def insertKeyed (p : String × String) : Cache → Cache
  | [] => [p]
  | q :: rest => if p.1 ≤ q.1 then p :: q :: rest else q :: insertKeyed p rest

/-- Key-sorting performed by `json.dump(unique_cache, f, sort_keys=True)`. -/
def sortByKey (c : Cache) : Cache :=
  c.foldr insertKeyed []

/-- Rate-limit and last-call bookkeeping of one entry of
`OUIManager.api_services`. -/
structure Service where
  name : String
  rate_limit : ℚ
  last_call : ℚ
deriving DecidableEq, Repr

/-- The mutable state of an `OUIManager` (NetVendor.py variant), plus the
modelled wall clock `now` and the on-disk JSON files. -/
structure OUIState where
  cache : Cache
  failed : List String
  pending_saves : Nat
  cache_file : Option Cache
  failed_file : Option (List String)
  services : List Service
  current_service_index : Nat
  now : ℚ
deriving DecidableEq, Repr

/-- The two services configured in `OUIManager.__init__`:
macvendors (rate limit 2.0 s) and maclookup (rate limit 1.0 s). -/
def initServices : List Service :=
  [⟨"macvendors", 2, 0⟩, ⟨"maclookup", 1, 0⟩]

/-- A fresh `OUIManager` with empty cache/failed-lookup files. -/
def initState : OUIState :=
  { cache := [], failed := [], pending_saves := 0, cache_file := none,
    failed_file := none, services := initServices,
    current_service_index := 0, now := 0 }

/-- `OUIManager.save_cache(force)`: skip (counting a pending save) unless
forced or 50 pending saves accumulated; otherwise write the
vendor-deduplicated, key-sorted cache to disk and reset the counter. -/
def save_cache (st : OUIState) (force : Bool) : OUIState :=
  if !force && st.pending_saves < 50 then
    { st with pending_saves := st.pending_saves + 1 }
  else
    { st with pending_saves := 0,
              cache_file := some (sortByKey (dedupCache st.cache)) }

/-- `OUIManager.load_cache`: read the JSON object from disk (empty cache
when the file is missing) and re-normalize every key with
`_normalize_mac`, rebuilding the dict entry by entry. -/
def load_cache (file : Option Cache) : Cache :=
  match file with
  | none => []
  | some raw => (raw.map (fun p => (normalizeMac p.1, p.2))).foldl
      (fun acc p => cachePut acc p.1 p.2) []

/-- `OUIManager.save_failed_lookups`: full rewrite of the JSON array. -/
def save_failed_lookups (st : OUIState) : OUIState :=
  { st with failed_file := some st.failed }

/-- A service entry used when indexing out of range (never reached on the
states the manager actually builds, where the index stays below the list
length). -/
def defaultService : Service := ⟨"", 0, 0⟩

/-- Rate limit of service `i`. -/
def svcRate (l : List Service) (i : Nat) : ℚ :=
  (l.getD i defaultService).rate_limit

/-- Last-call timestamp of service `i`. -/
def svcLast (l : List Service) (i : Nat) : ℚ :=
  (l.getD i defaultService).last_call

/-- `OUIManager._rate_limit`: sleep until at least `rate_limit` seconds
have passed since the service's `last_call`, then stamp `last_call` with
the current time.  The HTTP request is issued at the resulting `now`. -/
def rateLimitStep (st : OUIState) : OUIState :=
  let svc := st.services.getD st.current_service_index defaultService
  let time_since_last_call := st.now - svc.last_call
  let now' := if time_since_last_call < svc.rate_limit then
                st.now + (svc.rate_limit - time_since_last_call)
              else st.now
  { st with now := now',
            services := st.services.set st.current_service_index
              { svc with last_call := now' } }

/-- The `response.status_code == 429` branch of `OUIManager.get_vendor`:
`service['rate_limit'] *= 1.5`. -/
def applyBackoff (st : OUIState) : OUIState :=
  let svc := st.services.getD st.current_service_index defaultService
  { st with services := st.services.set st.current_service_index
              { svc with rate_limit := svc.rate_limit * (3 / 2) } }

/-- End-of-iteration bookkeeping in `OUIManager.get_vendor`: advance the
service cursor modulo the pool size and, when it has wrapped back to the
starting position, `time.sleep(1)`. -/
def advanceService (st : OUIState) (origIdx : Nat) : OUIState :=
  let idx' := (st.current_service_index + 1) % st.services.length
  let st' := { st with current_service_index := idx' }
  if idx' == origIdx then { st' with now := st'.now + 1 } else st'

/-- Outcome of one HTTP attempt, as seen by `OUIManager.get_vendor`:
a 200 response with the vendor string parsed per the service's mode
(plain body for macvendors, JSON field `company` with default
`"Unknown"` for maclookup), a 429, a 404, or anything else —
other status codes, transport errors, timeouts and JSON decode errors
all fall through to the next iteration. -/
inductive ApiResponse where
  | success (vendor : String)
  | rateLimited
  | notFound
  | transientError
deriving DecidableEq, Repr

/-- Result of `get_vendor`: the returned string, the manager state after
the call, and how many HTTP requests were issued. -/
structure LookupOutcome where
  vendor : String
  state : OUIState
  calls : Nat
deriving DecidableEq, Repr

/-- The `while retries < max_retries` loop of `OUIManager.get_vendor`,
with `remaining = max_retries - retries` and the oracle indexed by the
attempt number. -/
def getVendorLoop (oui : String) (origIdx : Nat) (oracle : Nat → ApiResponse)
    (st : OUIState) : Nat → Nat → LookupOutcome
  | 0, _ =>
    ⟨"Unknown", save_failed_lookups { st with failed := addFailed st.failed oui }, 0⟩
  | r + 1, attemptNo =>
    let st₁ := rateLimitStep st
    match oracle attemptNo with
    | .success v =>
      if v ≠ "" ∧ v ≠ "Unknown" then
        ⟨v, save_cache { st₁ with cache := cachePut st₁.cache oui v } false, 1⟩
      else
        let o := getVendorLoop oui origIdx oracle (advanceService st₁ origIdx) r (attemptNo + 1)
        ⟨o.vendor, o.state, o.calls + 1⟩
    | .rateLimited =>
        let o := getVendorLoop oui origIdx oracle
          (advanceService (applyBackoff st₁) origIdx) r (attemptNo + 1)
        ⟨o.vendor, o.state, o.calls + 1⟩
    | .notFound =>
        ⟨"Unknown", save_failed_lookups { st₁ with failed := addFailed st₁.failed oui }, 1⟩
    | .transientError =>
        let o := getVendorLoop oui origIdx oracle (advanceService st₁ origIdx) r (attemptNo + 1)
        ⟨o.vendor, o.state, o.calls + 1⟩

/-- `OUIManager.get_vendor`: reject invalid MACs, then cache hit, then
failed-lookup hit, then up to `2 × len(api_services)` rotating HTTP
attempts. -/
def get_vendor (st : OUIState) (oracle : Nat → ApiResponse) (mac : String) :
    LookupOutcome :=
  if validateMac mac = false then ⟨"Unknown", st, 0⟩
  else
    let oui := normalizeMac mac
    match cacheGet st.cache oui with
    | some v => ⟨v, st, 0⟩
    | none =>
      if st.failed.contains oui then ⟨"Unknown", st, 0⟩
      else getVendorLoop oui st.current_service_index oracle st
        (st.services.length * 2) 0

/-- One iteration of the first loop of `OUIManager.batch_lookup_vendors`:
classify one MAC as resolved (into the results dict) or unknown (queued
for remote lookup). -/
def batchStep (st : OUIState) (acc : Cache × List String) (mac : String) :
    Cache × List String :=
  if validateMac mac = false then (cachePut acc.1 mac "Unknown", acc.2)
  else
    match cacheGet st.cache (normalizeMac mac) with
    | some v => (cachePut acc.1 mac v, acc.2)
    | none =>
      if st.failed.contains (normalizeMac mac) then
        (cachePut acc.1 mac "Unknown", acc.2)
      else (acc.1, acc.2 ++ [mac])

/-- The first loop of `OUIManager.batch_lookup_vendors`: partition the
input into already-resolved results and `unknown_macs`. -/
def batchPartition (st : OUIState) (macs : List String) :
    Cache × List String :=
  macs.foldl (batchStep st) ([], [])

/-- The second loop of `OUIManager.batch_lookup_vendors`: sequentially
`get_vendor` each unknown MAC, threading the manager state; the oracle's
first argument selects the per-MAC attempt oracle. -/
def batchPhase2 (oracle : Nat → Nat → ApiResponse) :
    List String → Cache → OUIState → Nat → Nat → Cache × OUIState × Nat
  | [], res, s, calls, _ => (res, s, calls)
  | mac :: rest, res, s, calls, i =>
    let o := get_vendor s (oracle i) mac
    batchPhase2 oracle rest (cachePut res mac o.vendor) o.state
      (calls + o.calls) (i + 1)

/-- `OUIManager.batch_lookup_vendors(macs, progress)`: partition, then —
only when `unknown_macs` is non-empty AND a progress object was passed
(`if unknown_macs and progress:`) — look the unknowns up one at a time.
Returns the results dict, the final state, and the HTTP request count. -/
def batch_lookup_vendors (st : OUIState) (oracle : Nat → Nat → ApiResponse)
    (macs : List String) (hasProgress : Bool) : Cache × OUIState × Nat :=
  let part := batchPartition st macs
  if !part.2.isEmpty && hasProgress then
    batchPhase2 oracle part.2 part.1 st 0 0
  else (part.1, st, 0)

/-! ### Spec-side MAC normalization (for comparison with the source)

The specification (§4.1) describes a stricter normalization than the one
the source implements; the following two definitions transcribe the
spec's words so that the two can be compared. -/

/-- Spec §4.1: "strip any mask/suffix segment after `/` or whitespace". -/
def specStrip (mac : String) : List Char :=
  mac.data.takeWhile (fun c => !(c == '/' || c.isWhitespace))

/-- Spec §4.1, transcribed for comparison with `normalizeMac`/`validateMac`:
strip mask/suffix, remove `:`/`-`/`.` separators, uppercase, require
exactly 12 remaining hex characters (returning `none`, i.e.
`InvalidMacFormat`, otherwise), and keep the first 6 as the OuiKey. -/
def specNormalize (mac : String) : Option String :=
  let cleaned := ((specStrip mac).map Char.toUpper).filter
    (fun c => !(c == ':' || c == '-' || c == '.'))
  if decide (cleaned.length = 12) && cleaned.all isHexUpper then
    some (String.mk (cleaned.take 6))
  else none

/-- The 22 characters the specification counts as hex digits in a MAC. -/
def hexChars : List Char :=
  ['9', '8', '7', '6', '5', '4', '3', '2', '1', '0'].reverse ++
    ['f', 'e', 'd', 'c', 'b', 'a'].reverse ++
    ['F', 'E', 'D', 'C', 'B', 'A'].reverse

/-! ### File fingerprints -/

/-- One mebibyte, `1024 * 1024`, the block size used by
`OUIManager.get_file_metadata` in `NetVendor.py`. -/
def MiB : Nat := 1024 * 1024

/-- An input file: its byte content and its filesystem modification time. -/
structure FileRec where
  content : List Nat
  mtime : ℚ
deriving DecidableEq

/-- The dict returned by `OUIManager.get_file_metadata`: `size`, `mtime`
and the content hash (the digest value itself is abstract; what matters
is which bytes are fed to it). -/
structure FileMetadata where
  size : Nat
  mtime : ℚ
  hash : Nat
deriving DecidableEq

/-- The byte sequence `NetVendor.py` feeds to `hashlib.md5`:
`f.read(1024*1024)` (the first MiB), then `f.seek(max(0, size - 1024*1024))`
followed by `f.read()` (the last MiB), concatenated. -/
def netvendorHashInput (content : List Nat) : List Nat :=
  content.take MiB ++ content.drop (max 0 ((content.length : ℤ) - (MiB : ℤ))).toNat

/-- The byte ranges the spec (§4.4) says are hashed: "the first 1 MiB and
the last 1 MiB of the file ... hash those two byte ranges together". -/
def specHashInput (content : List Nat) : List Nat :=
  content.take MiB ++ content.drop (content.length - MiB)

/-- The successive 4096-byte blocks read by
`netvendor/core/oui_manager.py`'s `_get_file_hash`
(`iter(lambda: f.read(4096), b"")`). -/
def fileBlocks (l : List Nat) : List (List Nat) :=
  if l.isEmpty then [] else l.take 4096 :: fileBlocks (l.drop 4096)
termination_by l.length
decreasing_by
  simp only [List.length_drop]
  have hl : l ≠ [] := by simpa [List.isEmpty_iff] using (by assumption : ¬l.isEmpty = true)
  have : 0 < l.length := List.length_pos.mpr hl
  omega

/-- The byte sequence `netvendor/core/oui_manager.py` feeds to
`hashlib.sha256`: every 4096-byte block in order, i.e. the whole file. -/
def coreHashInput (content : List Nat) : List Nat :=
  (fileBlocks content).flatten

/-- `OUIManager.get_file_metadata` (NetVendor.py): `os.stat` size and
mtime plus the digest of the first-and-last-MiB byte ranges, for an
abstract digest function. -/
def get_file_metadata (digest : List Nat → Nat) (f : FileRec) : FileMetadata :=
  { size := f.content.length, mtime := f.mtime,
    hash := digest (netvendorHashInput f.content) }

/-- `OUIManager.has_file_changed` (NetVendor.py): recompute the metadata
and report changed when the path was never recorded or any of size,
mtime, hash differs from the stored record. -/
def has_file_changed (digest : List Nat → Nat)
    (processed : List (String × FileMetadata)) (path : String) (f : FileRec) :
    Bool :=
  let current := get_file_metadata digest f
  match (processed.find? (fun p => p.1 == path)).map (fun p => p.2) with
  | none => true
  | some stored =>
    decide (current.size ≠ stored.size) || decide (current.mtime ≠ stored.mtime)
      || decide (current.hash ≠ stored.hash)

/-! ### The packaged core module's `get_vendor`
(`src/netvendor/core/oui_manager.py`) -/

/-- State of the packaged core `OUIManager`: in-memory cache, in-memory
failed-lookup set, and the on-disk `failed_lookups.json`. -/
structure CoreState where
  cache : Cache
  failed : List String
  failed_file : Option (List String)
deriving DecidableEq

/-- The key the core module looks up: `mac[:6].upper()` — the first six
characters of the RAW string, separators included. -/
def coreOui (mac : String) : String :=
  String.mk ((mac.data.take 6).map Char.toUpper)

/-- `netvendor/core/oui_manager.py`, `OUIManager.get_vendor`: no network
access at all — failed-set membership of the raw MAC, then a cache probe
of `mac[:6].upper()`; on a miss the raw MAC is added to the failed set and
`failed_lookups.json` is rewritten immediately; returns `None` on miss. -/
def core_get_vendor (st : CoreState) (mac : String) : Option String × CoreState :=
  if st.failed.contains mac then (none, st)
  else
    match cacheGet st.cache (coreOui mac) with
    | some v => (some v, st)
    | none =>
      (none, { st with failed := addFailed st.failed mac,
                       failed_file := some (addFailed st.failed mac) })

/-! ### Concrete states used in scenario theorems -/

/-- A manager state whose cache and failed-lookup set overlap on
`"001B63"` (reachable by loading overlapping `oui_cache.json` and
`failed_lookups.json` files). -/
def overlapState : OUIState :=
  { initState with cache := [("001B63", "Apple, Inc.")], failed := ["001B63"] }

/-- A manager state with `"001B63"` cached (the spec's Apple scenario). -/
def appleCachedState : OUIState :=
  { initState with cache := [("001B63", "Apple, Inc.")] }

/-- A manager state with `"AABBCC"` recorded as a failed lookup. -/
def failedSeededState : OUIState :=
  { initState with failed := ["AABBCC"] }

/-- The in-memory state of claim C1's round-trip scenario: the prior
cache maps `"AAAAAA"` to `"Apple"`, and `put("BBBBBB", "Apple")` has
just been performed. -/
def c1AfterPut : OUIState :=
  { initState with cache := cachePut [("AAAAAA", "Apple")] "BBBBBB" "Apple" }

/-! ### Helper lemmas about the dictionary and set embeddings -/

theorem cacheGet_cachePut_self (c : Cache) (k v : String) :
    cacheGet (cachePut c k v) k = some v := by
  induction c with
  | nil => simp [cachePut, cacheGet]
  | cons p rest ih =>
    by_cases hp : p.1 == k <;> simp [cachePut, cacheGet, hp, ih]

theorem cacheGet_cachePut_ne (c : Cache) (k k' v : String) (h : k' ≠ k) :
    cacheGet (cachePut c k v) k' = cacheGet c k' := by
  have hkk : (k == k') = false := by simpa using fun e => h e.symm
  induction c with
  | nil => simp [cachePut, cacheGet, hkk]
  | cons p rest ih =>
    by_cases hp : p.1 == k
    · have hp1 : p.1 = k := by simpa using hp
      simp [cachePut, cacheGet, hp, hkk, hp1]
    · simp [cachePut, cacheGet, hp, ih]

theorem contains_addFailed_self (l : List String) (k : String) :
    (addFailed l k).contains k = true := by
  by_cases h : l.contains k <;> simp_all [addFailed]

theorem contains_addFailed_of (l : List String) (k k' : String)
    (h : l.contains k' = true) : (addFailed l k).contains k' = true := by
  by_cases hk : l.contains k <;> simp_all [addFailed]

theorem svcRate_set_self (l : List Service) (i : Nat) (s : Service)
    (h : i < l.length) : svcRate (l.set i s) i = s.rate_limit := by
  simp [svcRate, List.getD_eq_getElem?_getD, List.getElem?_set_eq_of_lt _ h]

theorem svcRate_set_ne (l : List Service) (i j : Nat) (s : Service)
    (h : i ≠ j) : svcRate (l.set i s) j = svcRate l j := by
  simp [svcRate, List.getD_eq_getElem?_getD, List.getElem?_set_ne h]

theorem svcLast_set_self (l : List Service) (i : Nat) (s : Service)
    (h : i < l.length) : svcLast (l.set i s) i = s.last_call := by
  simp [svcLast, List.getD_eq_getElem?_getD, List.getElem?_set_eq_of_lt _ h]

theorem svcLast_set_ne (l : List Service) (i j : Nat) (s : Service)
    (h : i ≠ j) : svcLast (l.set i s) j = svcLast l j := by
  simp [svcLast, List.getD_eq_getElem?_getD, List.getElem?_set_ne h]

/-! ### How each step of `get_vendor` affects the per-service state -/

theorem svcRate_rateLimitStep (st : OUIState) (j : Nat) :
    svcRate (rateLimitStep st).services j = svcRate st.services j := by
  by_cases hij : st.current_service_index = j
  · by_cases hlen : st.current_service_index < st.services.length
    · subst hij
      simp only [rateLimitStep]
      rw [svcRate_set_self _ _ _ hlen]
      rfl
    · simp [rateLimitStep, List.set_eq_of_length_le (Nat.le_of_not_lt hlen)]
  · simp [rateLimitStep, svcRate_set_ne _ _ _ _ hij]

theorem svcRate_applyBackoff_self (st : OUIState)
    (h : st.current_service_index < st.services.length) :
    svcRate (applyBackoff st).services st.current_service_index
      = svcRate st.services st.current_service_index * (3 / 2) := by
  simp only [applyBackoff]
  rw [svcRate_set_self _ _ _ h]
  rfl

theorem svcRate_applyBackoff_ne (st : OUIState) (j : Nat)
    (h : st.current_service_index ≠ j) :
    svcRate (applyBackoff st).services j = svcRate st.services j := by
  simp [applyBackoff, svcRate_set_ne _ _ _ _ h]

theorem svcRate_applyBackoff_ge (st : OUIState) (j : Nat)
    (h : 0 ≤ svcRate st.services j) :
    svcRate st.services j ≤ svcRate (applyBackoff st).services j := by
  by_cases hij : st.current_service_index = j
  · by_cases hlen : st.current_service_index < st.services.length
    · subst hij
      rw [svcRate_applyBackoff_self st hlen]
      nlinarith
    · simp [applyBackoff, List.set_eq_of_length_le (Nat.le_of_not_lt hlen)]
  · rw [svcRate_applyBackoff_ne st j hij]

theorem svcRate_applyBackoff_nonneg (st : OUIState) (j : Nat)
    (h : 0 ≤ svcRate st.services j) :
    0 ≤ svcRate (applyBackoff st).services j :=
  le_trans h (svcRate_applyBackoff_ge st j h)

theorem services_advanceService (st : OUIState) (origIdx : Nat) :
    (advanceService st origIdx).services = st.services := by
  simp only [advanceService]
  split <;> rfl

theorem services_save_cache (st : OUIState) (force : Bool) :
    (save_cache st force).services = st.services := by
  simp only [save_cache]
  split <;> rfl

theorem services_save_failed_lookups (st : OUIState) :
    (save_failed_lookups st).services = st.services := rfl

theorem mem_addFailed_self (l : List String) (k : String) : k ∈ addFailed l k := by
  by_cases h : l.contains k <;> simp_all [addFailed]

theorem svcRate_getVendorLoop_ge (oui : String) (origIdx : Nat)
    (oracle : Nat → ApiResponse) :
    ∀ (r attemptNo : Nat) (st : OUIState) (j : Nat),
      (∀ i, 0 ≤ svcRate st.services i) →
      svcRate st.services j ≤
        svcRate (getVendorLoop oui origIdx oracle st r attemptNo).state.services j := by
  intro r
  induction r with
  | zero =>
    intro aN st j h
    simp [getVendorLoop, save_failed_lookups]
  | succ r ih =>
    intro aN st j h
    have hrl : ∀ i, svcRate (rateLimitStep st).services i = svcRate st.services i :=
      fun i => svcRate_rateLimitStep st i
    cases horacle : oracle aN with
    | success v =>
      by_cases hv : v ≠ "" ∧ v ≠ "Unknown"
      · simp only [getVendorLoop, horacle, if_pos hv]
        rw [services_save_cache]
        exact le_of_eq (hrl j).symm
      · simp only [getVendorLoop, horacle, if_neg hv]
        have h2 : ∀ i, svcRate (advanceService (rateLimitStep st) origIdx).services i
            = svcRate st.services i := by
          intro i; rw [services_advanceService]; exact hrl i
        calc svcRate st.services j
            = svcRate (advanceService (rateLimitStep st) origIdx).services j := (h2 j).symm
          _ ≤ _ := ih (aN + 1) _ j (fun i => (h2 i).symm ▸ h i)
    | rateLimited =>
      simp only [getVendorLoop, horacle]
      have hb : ∀ i, svcRate st.services i ≤
          svcRate (advanceService (applyBackoff (rateLimitStep st)) origIdx).services i := by
        intro i
        rw [services_advanceService]
        calc svcRate st.services i
            = svcRate (rateLimitStep st).services i := (hrl i).symm
          _ ≤ svcRate (applyBackoff (rateLimitStep st)).services i :=
            svcRate_applyBackoff_ge _ i ((hrl i).symm ▸ h i)
      have hnn : ∀ i, 0 ≤
          svcRate (advanceService (applyBackoff (rateLimitStep st)) origIdx).services i :=
        fun i => le_trans (h i) (hb i)
      exact le_trans (hb j) (ih (aN + 1) _ j hnn)
    | notFound =>
      simp only [getVendorLoop, horacle]
      rw [services_save_failed_lookups]
      exact le_of_eq (hrl j).symm
    | transientError =>
      simp only [getVendorLoop, horacle]
      have h2 : ∀ i, svcRate (advanceService (rateLimitStep st) origIdx).services i
          = svcRate st.services i := by
        intro i; rw [services_advanceService]; exact hrl i
      calc svcRate st.services j
          = svcRate (advanceService (rateLimitStep st) origIdx).services j := (h2 j).symm
        _ ≤ _ := ih (aN + 1) _ j (fun i => (h2 i).symm ▸ h i)

theorem getVendorLoop_exhaustion (oui : String) (origIdx : Nat)
    (oracle : Nat → ApiResponse)
    (hor : ∀ k, oracle k = .transientError ∨ oracle k = .rateLimited) :
    ∀ (r attemptNo : Nat) (st : OUIState),
      (getVendorLoop oui origIdx oracle st r attemptNo).vendor = "Unknown" ∧
      (getVendorLoop oui origIdx oracle st r attemptNo).calls = r ∧
      (getVendorLoop oui origIdx oracle st r attemptNo).state.failed.contains oui
        = true := by
  intro r
  induction r with
  | zero =>
    intro aN st
    simp [getVendorLoop, save_failed_lookups, mem_addFailed_self]
  | succ r ih =>
    intro aN st
    rcases hor aN with h | h <;>
      simpa [getVendorLoop, h] using ih (aN + 1) _

/-! ### Batch partition lemmas -/

theorem batchStep_other (st : OUIState) (acc : Cache × List String)
    (m mac : String) (hne : mac ≠ m) :
    cacheGet (batchStep st acc m).1 mac = cacheGet acc.1 mac ∧
      (mac ∉ acc.2 → mac ∉ (batchStep st acc m).2) := by
  unfold batchStep
  split
  · exact ⟨cacheGet_cachePut_ne _ _ _ _ hne, fun h => h⟩
  · split
    · exact ⟨cacheGet_cachePut_ne _ _ _ _ hne, fun h => h⟩
    · split
      · exact ⟨cacheGet_cachePut_ne _ _ _ _ hne, fun h => h⟩
      · refine ⟨rfl, fun h => ?_⟩
        simp only [List.mem_append, List.mem_singleton]
        rintro (hm | hm)
        · exact h hm
        · exact hne hm

theorem batchPartition_hit (st : OUIState) (mac v : String)
    (hstep : ∀ acc, batchStep st acc mac = (cachePut acc.1 mac v, acc.2)) :
    ∀ (macs : List String) (acc : Cache × List String),
      (mac ∈ macs ∨ cacheGet acc.1 mac = some v) → mac ∉ acc.2 →
      cacheGet (macs.foldl (batchStep st) acc).1 mac = some v ∧
        mac ∉ (macs.foldl (batchStep st) acc).2 := by
  intro macs
  induction macs with
  | nil =>
    intro acc hor hnot
    rcases hor with h | h
    · exact absurd h (List.not_mem_nil mac)
    · exact ⟨h, hnot⟩
  | cons m rest ih =>
    intro acc hor hnot
    rw [List.foldl_cons]
    by_cases hm : mac = m
    · subst hm
      rw [hstep acc]
      exact ih _ (Or.inr (cacheGet_cachePut_self _ _ _)) hnot
    · have hother := batchStep_other st acc m mac hm
      refine ih _ ?_ (hother.2 hnot)
      rcases hor with h | h
      · rcases List.mem_cons.mp h with h' | h'
        · exact absurd h' hm
        · exact Or.inl h'
      · exact Or.inr (hother.1.trans h)

/-! ### Claims -/

/-- C5 counterexample: the input `"ABCDEF"` reduces to only 6 hex
characters, so the claim says normalization fails with InvalidMacFormat
and no network call is made; but `_validate_mac` only checks that the
normalized string starts with 6 hex characters, so the code accepts it
and performs an HTTP lookup that can even return a vendor. -/
theorem c5_counterexample :
    specNormalize "ABCDEF" = none ∧
    validateMac "ABCDEF" = true ∧
    (get_vendor initState (fun _ => ApiResponse.success "Acme") "ABCDEF").vendor
      = "Acme" ∧
    (get_vendor initState (fun _ => ApiResponse.success "Acme") "ABCDEF").calls
      = 1 := by
  refine ⟨by decide, by decide, ?_, ?_⟩ <;> decide

/-- C5 (amended): `_validate_mac` only requires the normalized string
(uppercased, `:`/`-`/`.` removed, truncated to 6 characters) to consist
of six hex characters; every input failing that weaker check is treated
as `Unknown` with zero network calls and unchanged state. -/
theorem c5_malformed_rejection (st : OUIState) (oracle : Nat → ApiResponse)
    (mac : String) (h : validateMac mac = false) :
    get_vendor st oracle mac = ⟨"Unknown", st, 0⟩ := by
  simp [get_vendor, h]

theorem c5_malformed_rejection_witness :
    validateMac "XY:Z" = false ∧
    get_vendor initState (fun _ => ApiResponse.transientError) "XY:Z"
      = ⟨"Unknown", initState, 0⟩ :=
  ⟨by decide,
   c5_malformed_rejection initState (fun _ => ApiResponse.transientError) "XY:Z"
     (by decide)⟩

/-- C2 counterexample: a key can be in the cache and the failed-lookup
set at once (both JSON files are loaded independently and the source
never reconciles them); `get_vendor` checks the cache first, so such a
failed-set member returns the cached vendor, not `Unknown` as the claim
demands for every MAC whose OUI is in the failed-lookup set. -/
theorem c2_counterexample :
    overlapState.failed.contains (normalizeMac "00:1B:63:AA:BB:CC") = true ∧
    (get_vendor overlapState (fun _ => ApiResponse.transientError)
        "00:1B:63:AA:BB:CC").vendor = "Apple, Inc." := by
  constructor <;> decide

/-- C2 (amended): no redundant network calls — a valid MAC whose
normalized OUI is cached resolves to the cached vendor with zero HTTP
calls and unchanged state; a MAC whose OUI is in the failed-lookup set
and NOT in the cache (the cache is consulted first) resolves to
`Unknown` with zero HTTP calls; and in `batch_lookup_vendors` such MACs
are resolved by the partition pass and never enter the `unknown_macs`
list handed to the remote-lookup loop. -/
theorem c2_no_redundant_network_calls (st : OUIState)
    (oracle : Nat → ApiResponse) (mac v : String) (macs : List String) :
    (validateMac mac = true →
      cacheGet st.cache (normalizeMac mac) = some v →
      get_vendor st oracle mac = ⟨v, st, 0⟩) ∧
    (cacheGet st.cache (normalizeMac mac) = none →
      st.failed.contains (normalizeMac mac) = true →
      get_vendor st oracle mac = ⟨"Unknown", st, 0⟩) ∧
    (mac ∈ macs → validateMac mac = true →
      cacheGet st.cache (normalizeMac mac) = some v →
      cacheGet (batchPartition st macs).1 mac = some v ∧
        mac ∉ (batchPartition st macs).2) ∧
    (mac ∈ macs →
      cacheGet st.cache (normalizeMac mac) = none →
      st.failed.contains (normalizeMac mac) = true →
      cacheGet (batchPartition st macs).1 mac = some "Unknown" ∧
        mac ∉ (batchPartition st macs).2) := by
  refine ⟨?_, ?_, ?_, ?_⟩
  · intro hval hc
    simp [get_vendor, hval, hc]
  · intro hc hf
    have hf' : normalizeMac mac ∈ st.failed := by simpa using hf
    by_cases hval : validateMac mac = false
    · simp [get_vendor, hval]
    · simp [get_vendor, hval, hc, hf']
  · intro hmem hval hc
    refine batchPartition_hit st mac v ?_ macs ([], []) (Or.inl hmem) (by simp)
    intro acc
    simp [batchStep, hval, hc]
  · intro hmem hc hf
    refine batchPartition_hit st mac "Unknown" ?_ macs ([], []) (Or.inl hmem) (by simp)
    intro acc
    have hf' : normalizeMac mac ∈ st.failed := by simpa using hf
    by_cases hval : validateMac mac = false
    · simp [batchStep, hval]
    · simp [batchStep, hval, hc, hf']

theorem c2_no_redundant_network_calls_witness :
    get_vendor appleCachedState (fun _ => ApiResponse.transientError)
      "00:1B:63:AA:BB:CC" = ⟨"Apple, Inc.", appleCachedState, 0⟩ ∧
    get_vendor failedSeededState (fun _ => ApiResponse.transientError)
      "AA:BB:CC:DD:EE:FF" = ⟨"Unknown", failedSeededState, 0⟩ ∧
    cacheGet (batchPartition appleCachedState ["00:1B:63:AA:BB:CC"]).1
      "00:1B:63:AA:BB:CC" = some "Apple, Inc." ∧
    "00:1B:63:AA:BB:CC" ∉ (batchPartition appleCachedState ["00:1B:63:AA:BB:CC"]).2 ∧
    cacheGet (batchPartition failedSeededState ["AA:BB:CC:DD:EE:FF"]).1
      "AA:BB:CC:DD:EE:FF" = some "Unknown" ∧
    "AA:BB:CC:DD:EE:FF" ∉ (batchPartition failedSeededState ["AA:BB:CC:DD:EE:FF"]).2 := by
  obtain ⟨h1, -, -, -⟩ := c2_no_redundant_network_calls appleCachedState
    (fun _ => ApiResponse.transientError) "00:1B:63:AA:BB:CC" "Apple, Inc." []
  obtain ⟨-, h2, -, -⟩ := c2_no_redundant_network_calls failedSeededState
    (fun _ => ApiResponse.transientError) "AA:BB:CC:DD:EE:FF" "" []
  obtain ⟨-, -, h3, -⟩ := c2_no_redundant_network_calls appleCachedState
    (fun _ => ApiResponse.transientError) "00:1B:63:AA:BB:CC" "Apple, Inc."
    ["00:1B:63:AA:BB:CC"]
  obtain ⟨-, -, -, h4⟩ := c2_no_redundant_network_calls failedSeededState
    (fun _ => ApiResponse.transientError) "AA:BB:CC:DD:EE:FF" ""
    ["AA:BB:CC:DD:EE:FF"]
  obtain ⟨h3a, h3b⟩ := h3 (by decide) (by decide) (by decide)
  obtain ⟨h4a, h4b⟩ := h4 (by decide) (by decide) (by decide)
  exact ⟨h1 (by decide) (by decide), h2 (by decide) (by decide), h3a, h3b, h4a, h4b⟩

/-- C3: permanent-Unknown terminals — (1) at any point of the retry loop,
an HTTP 404 adds the key to the failed-lookup set, rewrites
`failed_lookups.json`, and returns `Unknown` after exactly that one HTTP
call (no further service is tried); (2) for a key that is neither cached
nor already failed, if every attempt yields a transport error or a 429
(no successful response), the budget of `2 × len(api_services)` attempts
(4 with the two configured services) is exhausted, the key is added to
the failed-lookup set, and `Unknown` is returned. -/
theorem c3_permanent_unknown_terminals :
    (∀ (st : OUIState) (oracle : Nat → ApiResponse) (oui : String)
        (origIdx r attemptNo : Nat),
      oracle attemptNo = ApiResponse.notFound →
      (getVendorLoop oui origIdx oracle st (r + 1) attemptNo).vendor = "Unknown" ∧
      (getVendorLoop oui origIdx oracle st (r + 1) attemptNo).calls = 1 ∧
      (getVendorLoop oui origIdx oracle st (r + 1) attemptNo).state.failed
        = addFailed st.failed oui ∧
      (getVendorLoop oui origIdx oracle st (r + 1) attemptNo).state.failed_file
        = some (addFailed st.failed oui)) ∧
    (∀ (st : OUIState) (oracle : Nat → ApiResponse) (mac : String),
      validateMac mac = true →
      cacheGet st.cache (normalizeMac mac) = none →
      st.failed.contains (normalizeMac mac) = false →
      (∀ k, oracle k = ApiResponse.transientError ∨
            oracle k = ApiResponse.rateLimited) →
      (get_vendor st oracle mac).vendor = "Unknown" ∧
      (get_vendor st oracle mac).calls = 2 * st.services.length ∧
      (get_vendor st oracle mac).state.failed.contains (normalizeMac mac)
        = true) := by
  constructor
  · intro st oracle oui origIdx r attemptNo horacle
    simp [getVendorLoop, horacle, save_failed_lookups, rateLimitStep]
  · intro st oracle mac hval hc hf hor
    have hf' : ¬(normalizeMac mac ∈ st.failed) := by simpa using hf
    have hloop := getVendorLoop_exhaustion (normalizeMac mac)
      st.current_service_index oracle hor (st.services.length * 2) 0 st
    have hval' : ¬(validateMac mac = false) := by simp [hval]
    simpa [get_vendor, hval', hc, hf', Nat.mul_comm] using hloop

theorem c3_permanent_unknown_terminals_witness :
    (getVendorLoop "DEADBE" 0 (fun _ => ApiResponse.notFound) initState (3 + 1) 0).vendor
      = "Unknown" ∧
    (getVendorLoop "DEADBE" 0 (fun _ => ApiResponse.notFound) initState (3 + 1) 0).calls
      = 1 ∧
    (get_vendor initState (fun _ => ApiResponse.transientError) "AA:BB:CC:DD:EE:FF").vendor
      = "Unknown" ∧
    (get_vendor initState (fun _ => ApiResponse.transientError) "AA:BB:CC:DD:EE:FF").calls
      = 2 * initState.services.length ∧
    (get_vendor initState (fun _ => ApiResponse.transientError)
        "AA:BB:CC:DD:EE:FF").state.failed.contains (normalizeMac "AA:BB:CC:DD:EE:FF")
      = true := by
  obtain ⟨h1, h2, -, -⟩ := c3_permanent_unknown_terminals.1 initState
    (fun _ => ApiResponse.notFound) "DEADBE" 0 3 0 rfl
  obtain ⟨h3, h4, h5⟩ := c3_permanent_unknown_terminals.2 initState
    (fun _ => ApiResponse.transientError) "AA:BB:CC:DD:EE:FF"
    (by decide) (by decide) (by decide) (fun k => Or.inl rfl)
  exact ⟨h1, h2, h3, h4, h5⟩

/-- C4: backoff monotonicity — (1) the 429 handler multiplies exactly the
current service's rate-limit interval by 1.5; (2) a 429 outcome routes
the loop through `applyBackoff` (the only place any interval changes);
(3) across a whole `get_vendor` call no service's interval ever
decreases; (4) the spec scenario: two 429 responses from the same
service (attempts 0 and 2 both hit the first service) leave its interval
at `2.0 × 1.5²`. -/
theorem c4_backoff_monotonicity :
    (∀ st : OUIState, st.current_service_index < st.services.length →
      svcRate (applyBackoff st).services st.current_service_index
        = svcRate st.services st.current_service_index * (3 / 2) ∧
      ∀ j, st.current_service_index ≠ j →
        svcRate (applyBackoff st).services j = svcRate st.services j) ∧
    (∀ (st : OUIState) (oracle : Nat → ApiResponse) (oui : String)
        (origIdx r attemptNo : Nat),
      oracle attemptNo = ApiResponse.rateLimited →
      getVendorLoop oui origIdx oracle st (r + 1) attemptNo =
        ⟨(getVendorLoop oui origIdx oracle
            (advanceService (applyBackoff (rateLimitStep st)) origIdx) r
            (attemptNo + 1)).vendor,
         (getVendorLoop oui origIdx oracle
            (advanceService (applyBackoff (rateLimitStep st)) origIdx) r
            (attemptNo + 1)).state,
         (getVendorLoop oui origIdx oracle
            (advanceService (applyBackoff (rateLimitStep st)) origIdx) r
            (attemptNo + 1)).calls + 1⟩) ∧
    (∀ (st : OUIState) (oracle : Nat → ApiResponse) (mac : String) (j : Nat),
      (∀ i, 0 ≤ svcRate st.services i) →
      svcRate st.services j ≤
        svcRate (get_vendor st oracle mac).state.services j) ∧
    svcRate (get_vendor initState
        (fun k => if k = 0 || k = 2 then ApiResponse.rateLimited
                  else ApiResponse.transientError)
        "00:1B:63:AA:BB:CC").state.services 0 = 2 * (3 / 2) * (3 / 2) := by
  refine ⟨?_, ?_, ?_, ?_⟩
  · intro st h
    exact ⟨svcRate_applyBackoff_self st h, fun j hj => svcRate_applyBackoff_ne st j hj⟩
  · intro st oracle oui origIdx r attemptNo horacle
    simp [getVendorLoop, horacle]
  · intro st oracle mac j h
    by_cases hval : validateMac mac = false
    · simp [get_vendor, hval]
    · cases hc : cacheGet st.cache (normalizeMac mac) with
      | some v => simp [get_vendor, hval, hc]
      | none =>
        by_cases hfm : normalizeMac mac ∈ st.failed
        · simp [get_vendor, hval, hc, hfm]
        · have hge := svcRate_getVendorLoop_ge (normalizeMac mac)
            st.current_service_index oracle (st.services.length * 2) 0 st j h
          simpa [get_vendor, hval, hc, hfm] using hge
  · have h1 : validateMac "00:1B:63:AA:BB:CC" = true := by decide
    have h2 : normalizeMac "00:1B:63:AA:BB:CC" = "001B63" := by decide
    norm_num [get_vendor, h1, h2, getVendorLoop, rateLimitStep, applyBackoff,
      advanceService, save_failed_lookups, save_cache, cachePut, addFailed, svcRate,
      initState, initServices, defaultService, cacheGet, List.getD]

theorem c4_backoff_monotonicity_witness :
    (svcRate (applyBackoff initState).services initState.current_service_index
      = svcRate initState.services initState.current_service_index * (3 / 2)) ∧
    (getVendorLoop "001B63" 0 (fun _ => ApiResponse.rateLimited) initState (3 + 1) 0 =
      ⟨(getVendorLoop "001B63" 0 (fun _ => ApiResponse.rateLimited)
          (advanceService (applyBackoff (rateLimitStep initState)) 0) 3 (0 + 1)).vendor,
       (getVendorLoop "001B63" 0 (fun _ => ApiResponse.rateLimited)
          (advanceService (applyBackoff (rateLimitStep initState)) 0) 3 (0 + 1)).state,
       (getVendorLoop "001B63" 0 (fun _ => ApiResponse.rateLimited)
          (advanceService (applyBackoff (rateLimitStep initState)) 0) 3 (0 + 1)).calls + 1⟩) ∧
    svcRate initState.services 1 ≤
      svcRate (get_vendor initState (fun _ => ApiResponse.transientError)
        "AA:BB:CC:DD:EE:FF").state.services 1 := by
  refine ⟨(c4_backoff_monotonicity.1 initState (by decide)).1,
    c4_backoff_monotonicity.2.1 initState (fun _ => ApiResponse.rateLimited)
      "001B63" 0 3 0 rfl,
    c4_backoff_monotonicity.2.2.1 initState (fun _ => ApiResponse.transientError)
      "AA:BB:CC:DD:EE:FF" 1 ?_⟩
  intro i
  rcases i with _ | _ | i <;>
    norm_num [svcRate, initState, initServices, List.getD, defaultService]

/-- C8: rate-limit spacing — `_rate_limit` (executed before every HTTP
request) sleeps exactly long enough that the request is issued no earlier
than `last_call + rate_limit` of the current service, never moves the
clock backwards, and stamps the service's `last_call` with the issue
time (so the next call to the same service is spaced by at least its
then-current interval); it never changes any rate-limit interval. -/
theorem c8_rate_limit_spacing (st : OUIState)
    (h : st.current_service_index < st.services.length) :
    svcRate st.services st.current_service_index ≤
      (rateLimitStep st).now - svcLast st.services st.current_service_index ∧
    st.now ≤ (rateLimitStep st).now ∧
    svcLast (rateLimitStep st).services st.current_service_index
      = (rateLimitStep st).now ∧
    (∀ j, svcRate (rateLimitStep st).services j = svcRate st.services j) := by
  refine ⟨?_, ?_, ?_, fun j => svcRate_rateLimitStep st j⟩
  · simp only [rateLimitStep, svcRate, svcLast]
    split
    · linarith
    · linarith
  · simp only [rateLimitStep]
    split
    · linarith
    · linarith
  · simp only [rateLimitStep]
    rw [svcLast_set_self _ _ _ h]

theorem c8_rate_limit_spacing_witness :
    svcRate initState.services 0 ≤
      (rateLimitStep initState).now - svcLast initState.services 0 ∧
    initState.now ≤ (rateLimitStep initState).now ∧
    svcLast (rateLimitStep initState).services 0 = (rateLimitStep initState).now := by
  obtain ⟨h1, h2, h3, -⟩ := c8_rate_limit_spacing initState (by decide)
  exact ⟨h1, h2, h3⟩

/-- C1: the cache round-trip fails — `save_cache` drops every entry whose
vendor string already occurs earlier in the cache ("duplicate vendor"
dedup), so after `put("BBBBBB", "Apple")` on a cache already mapping
`"AAAAAA"` to `"Apple"`, a forced flush and a fresh load, the key
`"BBBBBB"` is gone (the claim requires `get("BBBBBB") = "Apple"`).
The spec itself flags this dedup as a likely source bug (§9). -/
theorem c1_roundtrip_violated :
    ("Apple" : String) ≠ "" ∧
    cacheGet c1AfterPut.cache "BBBBBB" = some "Apple" ∧
    cacheGet (load_cache ((save_cache c1AfterPut true).cache_file)) "BBBBBB"
      = none := by
  refine ⟨by decide, by decide, by decide⟩

/-- C7: batch totality fails — `batch_lookup_vendors` guards the whole
remote-lookup loop with `if unknown_macs and progress:`, so when no
progress object is supplied (`progress=None`, the parameter's default),
every cache-miss MAC is classified as unknown and then silently dropped:
the returned mapping has no entry for it at all (the claim requires an
entry for every input MAC).  With a progress object the same input gets
its entry, showing the guard is what loses the lookups. -/
theorem c7_batch_totality_violated :
    (batchPartition initState ["00:1B:63:AA:BB:CC"]).2 = ["00:1B:63:AA:BB:CC"] ∧
    (batch_lookup_vendors initState (fun _ _ => ApiResponse.success "Apple, Inc.")
        ["00:1B:63:AA:BB:CC"] false).1 = [] ∧
    (batch_lookup_vendors initState (fun _ _ => ApiResponse.success "Apple, Inc.")
        ["00:1B:63:AA:BB:CC"] false).2.2 = 0 ∧
    cacheGet (batch_lookup_vendors initState
        (fun _ _ => ApiResponse.success "Apple, Inc.")
        ["00:1B:63:AA:BB:CC"] true).1 "00:1B:63:AA:BB:CC" = some "Apple, Inc." := by
  refine ⟨by decide, by decide, by decide, by decide⟩

/-- C10: the packaged core module's `get_vendor` — it tests failed-set
membership of the RAW MAC string, looks up `mac[:6].upper()` (separators
included) in the cache, returns the cached vendor on a hit, and on any
cache miss adds the full raw MAC to the failed-lookup set, immediately
rewrites `failed_lookups.json`, and returns `None` (not `"Unknown"`).
It performs no network access on any path (the embedding has no oracle:
the result is a function of the state alone). -/
theorem c10_core_get_vendor (st : CoreState) (mac v : String) :
    (st.failed.contains mac = true → core_get_vendor st mac = (none, st)) ∧
    (st.failed.contains mac = false →
      cacheGet st.cache (coreOui mac) = some v →
      core_get_vendor st mac = (some v, st)) ∧
    (st.failed.contains mac = false →
      cacheGet st.cache (coreOui mac) = none →
      core_get_vendor st mac =
        (none, ⟨st.cache, addFailed st.failed mac,
                some (addFailed st.failed mac)⟩)) := by
  refine ⟨?_, ?_, ?_⟩
  · intro hf
    have hf' : mac ∈ st.failed := by simpa using hf
    simp [core_get_vendor, hf']
  · intro hf hc
    have hf' : ¬(mac ∈ st.failed) := by simpa using hf
    simp [core_get_vendor, hf', hc]
  · intro hf hc
    have hf' : ¬(mac ∈ st.failed) := by simpa using hf
    simp [core_get_vendor, hf', hc]

theorem c10_core_get_vendor_witness :
    core_get_vendor ⟨[], ["00:1B:63:AA:BB:CC"], none⟩ "00:1B:63:AA:BB:CC"
      = (none, ⟨[], ["00:1B:63:AA:BB:CC"], none⟩) ∧
    core_get_vendor ⟨[("00:1B:", "Apple, Inc.")], [], none⟩ "00:1b:63:aa:bb:cc"
      = (some "Apple, Inc.", ⟨[("00:1B:", "Apple, Inc.")], [], none⟩) ∧
    core_get_vendor ⟨[], [], none⟩ "00:1B:63:AA:BB:CC"
      = (none, ⟨[], ["00:1B:63:AA:BB:CC"], some ["00:1B:63:AA:BB:CC"]⟩) := by
  refine ⟨(c10_core_get_vendor ⟨[], ["00:1B:63:AA:BB:CC"], none⟩
      "00:1B:63:AA:BB:CC" "").1 (by decide),
    (c10_core_get_vendor ⟨[("00:1B:", "Apple, Inc.")], [], none⟩
      "00:1b:63:aa:bb:cc" "Apple, Inc.").2.1 (by decide) (by decide),
    ?_⟩
  have h := (c10_core_get_vendor ⟨[], [], none⟩ "00:1B:63:AA:BB:CC" "").2.2
    (by decide) (by decide)
  simpa [addFailed] using h

/-! ### File-fingerprint lemmas and claims -/

theorem netvendorHashInput_eq_spec (content : List Nat) :
    netvendorHashInput content = specHashInput content := by
  have h : (max 0 ((content.length : ℤ) - (MiB : ℤ))).toNat
      = content.length - MiB := by omega
  unfold netvendorHashInput specHashInput
  rw [h]

theorem fileBlocks_flatten (l : List Nat) : (fileBlocks l).flatten = l := by
  rw [fileBlocks]
  split
  · simp_all [List.isEmpty_iff]
  · rw [List.flatten_cons, fileBlocks_flatten (l.drop 4096)]
    exact List.take_append_drop 4096 l
termination_by l.length
decreasing_by
  simp only [List.length_drop]
  have hl : l ≠ [] := by simpa [List.isEmpty_iff] using (by assumption : ¬l.isEmpty = true)
  have : 0 < l.length := List.length_pos.mpr hl
  omega

/-- C9 counterexample: for the 3-byte file `[0, 1, 2]`, the byte sequence
the packaged core module feeds to its digest is the whole file `[0,1,2]`
(`_get_file_hash` reads the file to the end in 4096-byte blocks), not
the spec's "first 1 MiB and last 1 MiB hashed together", which for this
file is `[0,1,2] ++ [0,1,2]` — the two hash inputs differ, so the claim
that `compute` hashes exactly those two byte ranges is false for
`netvendor/core/oui_manager.py`. -/
theorem c9_counterexample :
    coreHashInput [0, 1, 2] = [0, 1, 2] ∧
    specHashInput [0, 1, 2] = [0, 1, 2, 0, 1, 2] ∧
    coreHashInput [0, 1, 2] ≠ specHashInput [0, 1, 2] := by
  have h1 : coreHashInput [0, 1, 2] = [0, 1, 2] := fileBlocks_flatten _
  have h2 : specHashInput [0, 1, 2] = [0, 1, 2, 0, 1, 2] := by
    unfold specHashInput
    rw [List.take_of_length_le (by norm_num [MiB]),
      show ([0, 1, 2] : List Nat).length - MiB = 0 by norm_num [MiB], List.drop_zero]
    rfl
  refine ⟨h1, h2, ?_⟩
  rw [h1, h2]
  decide

/-- C9 (amended): in `NetVendor.py`, `get_file_metadata` returns
`{size, mtime, hash}` where the hash digests exactly the first 1 MiB and
the last 1 MiB of the file concatenated (as the claim states), and
`has_file_changed` returns true iff no fingerprint is stored for the
path or any of size, mtime, hash differs from the freshly computed one;
in the packaged core module (`netvendor/core/oui_manager.py`), however,
`_get_file_hash` digests the entire file contents instead of those two
byte ranges. -/
theorem c9_fingerprint_contract :
    (∀ (digest : List Nat → Nat) (f : FileRec),
      get_file_metadata digest f =
        ⟨f.content.length, f.mtime, digest (specHashInput f.content)⟩) ∧
    (∀ (digest : List Nat → Nat) (processed : List (String × FileMetadata))
        (path : String) (f : FileRec),
      ((processed.find? (fun p => p.1 == path)) = none →
        has_file_changed digest processed path f = true) ∧
      (∀ stored : FileMetadata,
        (processed.find? (fun p => p.1 == path)).map (fun p => p.2) = some stored →
        (has_file_changed digest processed path f = true ↔
          ((get_file_metadata digest f).size ≠ stored.size ∨
           (get_file_metadata digest f).mtime ≠ stored.mtime ∨
           (get_file_metadata digest f).hash ≠ stored.hash)))) ∧
    (∀ content : List Nat, coreHashInput content = content) := by
  refine ⟨?_, ?_, fun content => fileBlocks_flatten content⟩
  · intro digest f
    unfold get_file_metadata
    rw [netvendorHashInput_eq_spec]
  · intro digest processed path f
    constructor
    · intro hnone
      simp [has_file_changed, hnone]
    · intro stored hstored
      simp only [has_file_changed, hstored]
      simp [Bool.or_eq_true, decide_eq_true_eq, or_assoc]

theorem c9_fingerprint_contract_witness :
    get_file_metadata (fun l => l.length) ⟨[0, 1, 2], 5⟩ = ⟨3, 5, 6⟩ ∧
    has_file_changed (fun l => l.length) [] "dump.txt" ⟨[0, 1, 2], 5⟩ = true ∧
    (has_file_changed (fun l => l.length) [("dump.txt", ⟨3, 5, 6⟩)] "dump.txt"
        ⟨[0, 1, 2], 5⟩ = true ↔
      (get_file_metadata (fun l => l.length) ⟨[0, 1, 2], 5⟩).size ≠ 3 ∨
      (get_file_metadata (fun l => l.length) ⟨[0, 1, 2], 5⟩).mtime ≠ 5 ∨
      (get_file_metadata (fun l => l.length) ⟨[0, 1, 2], 5⟩).hash ≠ 6) := by
  have hs : specHashInput [0, 1, 2] = [0, 1, 2, 0, 1, 2] := by
    unfold specHashInput
    rw [List.take_of_length_le (by norm_num [MiB]),
      show ([0, 1, 2] : List Nat).length - MiB = 0 by norm_num [MiB], List.drop_zero]
    rfl
  refine ⟨?_, ?_, ?_⟩
  · have h := c9_fingerprint_contract.1 (fun l => l.length) ⟨[0, 1, 2], 5⟩
    rw [h]
    simp [hs]
  · exact (c9_fingerprint_contract.2.1 (fun l => l.length) [] "dump.txt"
      ⟨[0, 1, 2], 5⟩).1 rfl
  · exact (c9_fingerprint_contract.2.1 (fun l => l.length)
      [("dump.txt", ⟨3, 5, 6⟩)] "dump.txt" ⟨[0, 1, 2], 5⟩).2 ⟨3, 5, 6⟩ rfl

/-! ### Character-level lemmas for MAC normalization -/

theorem data_mk (l : List Char) : (String.mk l).data = l := rfl

theorem hex_toUpper_facts : ∀ c ∈ hexChars,
    (Char.toUpper c == '.') = false ∧ (Char.toUpper c == ':') = false ∧
    (Char.toUpper c == '-') = false ∧
    Char.toUpper (Char.toUpper c) = Char.toUpper c ∧
    isHexUpper (Char.toUpper c) = true := by
  intro c hc
  fin_cases hc <;> exact ⟨rfl, rfl, rfl, rfl, rfl⟩

theorem keep_cond (c : Char) (hc : c ∈ hexChars) :
    (!(Char.toUpper c == '.' || Char.toUpper c == ':' || Char.toUpper c == '-'))
      = true := by
  obtain ⟨h1, h2, h3, -, -⟩ := hex_toUpper_facts c hc
  simp [h1, h2, h3]

theorem drop_cond_colon :
    (!(Char.toUpper ':' == '.' || Char.toUpper ':' == ':' || Char.toUpper ':' == '-'))
      = false := by decide

theorem drop_cond_dash :
    (!(Char.toUpper '-' == '.' || Char.toUpper '-' == ':' || Char.toUpper '-' == '-'))
      = false := by decide

theorem drop_cond_dot :
    (!(Char.toUpper '.' == '.' || Char.toUpper '.' == ':' || Char.toUpper '.' == '-'))
      = false := by decide

/-- C6: normalization separator-invariance and idempotence — for every
valid 12-hex-digit MAC, the colon-, dash-, dot-separated and unseparated
renderings all normalize to the same 6-character OuiKey, namely the
uppercased first six digits (which are uppercase hex characters), and
normalizing an already-normalized key returns it unchanged. -/
theorem c6_normalization_invariance
    (a b c d e f g h i j k m : Char)
    (ha : a ∈ hexChars) (hb : b ∈ hexChars) (hc : c ∈ hexChars)
    (hd : d ∈ hexChars) (he : e ∈ hexChars) (hf : f ∈ hexChars)
    (hg : g ∈ hexChars) (hh : h ∈ hexChars) (hi : i ∈ hexChars)
    (hj : j ∈ hexChars) (hk : k ∈ hexChars) (hm : m ∈ hexChars) :
    normalizeMac (String.mk [a, b, ':', c, d, ':', e, f, ':', g, h, ':', i, j, ':', k, m])
      = String.mk ([a, b, c, d, e, f].map Char.toUpper) ∧
    normalizeMac (String.mk [a, b, '-', c, d, '-', e, f, '-', g, h, '-', i, j, '-', k, m])
      = String.mk ([a, b, c, d, e, f].map Char.toUpper) ∧
    normalizeMac (String.mk [a, b, c, d, '.', e, f, g, h, '.', i, j, k, m])
      = String.mk ([a, b, c, d, e, f].map Char.toUpper) ∧
    normalizeMac (String.mk [a, b, c, d, e, f, g, h, i, j, k, m])
      = String.mk ([a, b, c, d, e, f].map Char.toUpper) ∧
    (([a, b, c, d, e, f].map Char.toUpper).all isHexUpper = true) ∧
    normalizeMac (String.mk ([a, b, c, d, e, f].map Char.toUpper))
      = String.mk ([a, b, c, d, e, f].map Char.toUpper) := by
  obtain ⟨-, -, -, ha4, ha5⟩ := hex_toUpper_facts a ha
  obtain ⟨-, -, -, hb4, hb5⟩ := hex_toUpper_facts b hb
  obtain ⟨-, -, -, hc4, hc5⟩ := hex_toUpper_facts c hc
  obtain ⟨-, -, -, hd4, hd5⟩ := hex_toUpper_facts d hd
  obtain ⟨-, -, -, he4, he5⟩ := hex_toUpper_facts e he
  obtain ⟨-, -, -, hf4, hf5⟩ := hex_toUpper_facts f hf
  refine ⟨?_, ?_, ?_, ?_, ?_, ?_⟩
  · simp only [normalizeMac, data_mk, List.map_cons, List.map_nil, List.filter_cons,
      keep_cond a ha, keep_cond b hb, keep_cond c hc, keep_cond d hd, keep_cond e he,
      keep_cond f hf, keep_cond g hg, keep_cond h hh, keep_cond i hi, keep_cond j hj,
      keep_cond k hk, keep_cond m hm, drop_cond_colon, if_true, if_false,
      List.filter_nil]
    rfl
  · simp only [normalizeMac, data_mk, List.map_cons, List.map_nil, List.filter_cons,
      keep_cond a ha, keep_cond b hb, keep_cond c hc, keep_cond d hd, keep_cond e he,
      keep_cond f hf, keep_cond g hg, keep_cond h hh, keep_cond i hi, keep_cond j hj,
      keep_cond k hk, keep_cond m hm, drop_cond_dash, if_true, if_false,
      List.filter_nil]
    rfl
  · simp only [normalizeMac, data_mk, List.map_cons, List.map_nil, List.filter_cons,
      keep_cond a ha, keep_cond b hb, keep_cond c hc, keep_cond d hd, keep_cond e he,
      keep_cond f hf, keep_cond g hg, keep_cond h hh, keep_cond i hi, keep_cond j hj,
      keep_cond k hk, keep_cond m hm, drop_cond_dot, if_true, if_false,
      List.filter_nil]
    rfl
  · simp only [normalizeMac, data_mk, List.map_cons, List.map_nil, List.filter_cons,
      keep_cond a ha, keep_cond b hb, keep_cond c hc, keep_cond d hd, keep_cond e he,
      keep_cond f hf, keep_cond g hg, keep_cond h hh, keep_cond i hi, keep_cond j hj,
      keep_cond k hk, keep_cond m hm, if_true, List.filter_nil]
    rfl
  · simp [ha5, hb5, hc5, hd5, he5, hf5]
  · simp only [normalizeMac, data_mk, List.map_cons, List.map_nil, ha4, hb4, hc4,
      hd4, he4, hf4, List.filter_cons,
      keep_cond a ha, keep_cond b hb, keep_cond c hc, keep_cond d hd, keep_cond e he,
      keep_cond f hf, if_true, List.filter_nil]
    rfl

theorem c6_normalization_invariance_witness :
    normalizeMac (String.mk ['0', '0', ':', '1', 'b', ':', '6', '3', ':', 'a', 'a',
        ':', 'b', 'b', ':', 'c', 'c'])
      = String.mk (['0', '0', '1', 'b', '6', '3'].map Char.toUpper) ∧
    normalizeMac (String.mk ['0', '0', '-', '1', 'b', '-', '6', '3', '-', 'a', 'a',
        '-', 'b', 'b', '-', 'c', 'c'])
      = String.mk (['0', '0', '1', 'b', '6', '3'].map Char.toUpper) ∧
    normalizeMac (String.mk ['0', '0', '1', 'b', '.', '6', '3', 'a', 'a', '.', 'b',
        'b', 'c', 'c'])
      = String.mk (['0', '0', '1', 'b', '6', '3'].map Char.toUpper) ∧
    normalizeMac (String.mk ['0', '0', '1', 'b', '6', '3', 'a', 'a', 'b', 'b', 'c', 'c'])
      = String.mk (['0', '0', '1', 'b', '6', '3'].map Char.toUpper) ∧
    normalizeMac (String.mk (['0', '0', '1', 'b', '6', '3'].map Char.toUpper))
      = String.mk (['0', '0', '1', 'b', '6', '3'].map Char.toUpper) := by
  obtain ⟨w1, w2, w3, w4, -, w6⟩ := c6_normalization_invariance
    '0' '0' '1' 'b' '6' '3' 'a' 'a' 'b' 'b' 'c' 'c'
    (by decide) (by decide) (by decide) (by decide) (by decide) (by decide)
    (by decide) (by decide) (by decide) (by decide) (by decide) (by decide)
  exact ⟨w1, w2, w3, w4, w6⟩
